import Mathlib

/-!
Verification of the specification-matching and recommendation engine of the
B2B RFP response system (technical agent runner, backend technical agent,
pricing agent, and the earlier `agent.py` variant).

Modelling conventions, applied throughout:
* Python floats are modelled as exact rationals (`ℚ`).  The tolerances and
  examples verified here are far away from IEEE rounding error.
* Python strings are modelled as ASCII `List Char`; `str.lower`, `str.strip`,
  the `in` substring operator and `str.isdigit` are modelled for the ASCII
  range, which covers every specification value in the repository.
* Python `round(x, n)` is modelled as half-up rounding to `n` decimals
  (Python's float `round` is round-half-to-even; no property below depends on
  the behaviour at exact ties).
* Python dicts are modelled as association lists in insertion order; absent
  keys are `Option.none` lookups.
-/

/-- ASCII model of `str.isdigit` for one character. -/
def isDigitB (c : Char) : Bool := 48 ≤ c.toNat && c.toNat ≤ 57

/-- Characters stripped by Python `str.strip()` (ASCII whitespace). -/
def isPySpace (c : Char) : Bool :=
  c == ' ' || c == '\t' || c == '\n' || c == '\r' || c == '\x0b' || c == '\x0c'

/-- ASCII model of `str.lower` on one character. -/
def pyLowerChar (c : Char) : Char :=
  if h : 65 ≤ c.toNat ∧ c.toNat ≤ 90 then
    ⟨⟨⟨c.toNat + 32, by omega⟩⟩, Or.inl (by show c.toNat + 32 < 55296; omega)⟩
  else c

/-- ASCII model of `str.lower` on a string (as a character list). -/
def lowerL (cs : List Char) : List Char := cs.map pyLowerChar

/-- Model of Python `str.strip()`: drop leading and trailing whitespace. -/
def trimL (cs : List Char) : List Char :=
  ((cs.dropWhile isPySpace).reverse.dropWhile isPySpace).reverse

/-- Model of `a.startswith(b)`-style prefix test, used to build the substring
test below. -/
def isPrefixB : List Char → List Char → Bool
  | [], _ => true
  | _ :: _, [] => false
  | x :: xs, y :: ys => x == y && isPrefixB xs ys

/-- Model of the Python substring operator `a in b` (contiguous occurrence;
the empty string occurs in every string). -/
def isInfixB : List Char → List Char → Bool
  | a, [] => a.isEmpty
  | a, y :: ys => isPrefixB a (y :: ys) || isInfixB a ys

/-- Value of a nonempty all-digit character list. -/
def digitsToNat (cs : List Char) : Nat :=
  cs.foldl (fun n c => n * 10 + (c.toNat - 48)) 0

/-- Parse the integer/fraction digit shape accepted by Python `float` on a
sign-free string built from digits and at most one `'.'`: `D+`, `D+.D*` or
`.D+`.  Returns the numerator scaled by `10 ^ (number of fractional digits)`
together with that power of ten. -/
def parseUnsignedFloat (cs : List Char) : Option (Nat × Nat) :=
  let intPart := cs.takeWhile isDigitB
  let rest := cs.drop intPart.length
  match rest with
  | [] => if intPart.isEmpty then Option.none else some (digitsToNat intPart, 1)
  | '.' :: fracPart =>
      if fracPart.all isDigitB && !(intPart.isEmpty && fracPart.isEmpty) then
        some (digitsToNat intPart * 10 ^ fracPart.length + digitsToNat fracPart,
              10 ^ fracPart.length)
      else Option.none
  | _ => Option.none

/-- Model of Python `float(s)` on the strings produced by the runner's
character filter (digits, `'.'` and `'-'` only; no exponent or whitespace can
survive the filter).  `Option.none` models a raised `ValueError`.  The value
is built with `Rat.divInt` so that closed instances reduce inside the kernel. -/
def parsePyFloat (cs : List Char) : Option ℚ :=
  match cs with
  | '-' :: rest =>
      (parseUnsignedFloat rest).map fun p => Rat.divInt (-(p.1 : ℤ)) (p.2 : ℤ)
  | _ => (parseUnsignedFloat cs).map fun p => Rat.divInt (p.1 : ℤ) (p.2 : ℤ)

/-- Decimal digit character for `d % 10`. -/
def digitChar (d : Nat) : Char :=
  match d % 10 with
  | 0 => '0' | 1 => '1' | 2 => '2' | 3 => '3' | 4 => '4'
  | 5 => '5' | 6 => '6' | 7 => '7' | 8 => '8' | _ => '9'

/-- Decimal digits of a natural number (fuel-bounded division loop). -/
def natDigitsAux : Nat → Nat → List Char → List Char
  | 0, _, acc => acc
  | fuel + 1, n, acc =>
      if n < 10 then digitChar n :: acc
      else natDigitsAux fuel (n / 10) (digitChar (n % 10) :: acc)

/-- Decimal digits of a natural number, most significant first. -/
def natDigits (n : Nat) : List Char := natDigitsAux (n + 1) n []

/-- Fractional decimal digits of `rem / den` (`rem < den`), fuel-bounded; the
runner only prints floats parsed from short decimal strings, whose expansion
terminates well inside the fuel. -/
def decFracDigits : Nat → Nat → Nat → List Char
  | 0, _, _ => []
  | _ + 1, 0, _ => []
  | fuel + 1, rem, den =>
      digitChar (rem * 10 / den) :: decFracDigits fuel (rem * 10 % den) den

/-- Model of Python `str(float)` for the magnitudes the matcher handles:
optional sign, integer digits, `'.'`, then the fractional digits (`"95.0"`,
`"0.5"`, `"-1.0"`, ...).  Scientific notation (|x| ≥ 1e16) is outside the
modelled range. -/
def pyFloatRepr (q : ℚ) : List Char :=
  let sign : List Char := if q < 0 then ['-'] else []
  let n := q.num.natAbs
  let d := q.den
  let fr := decFracDigits 60 (n % d) d
  sign ++ natDigits (n / d) ++ '.' :: (if fr.isEmpty then ['0'] else fr)

/-- Half-up rounding to an integer, the model of Python `round(x)`. -/
def pyRoundInt (q : ℚ) : ℤ := ⌊q + 1/2⌋

/-- Model of Python `round(x, 2)`. -/
def round2 (q : ℚ) : ℚ := (pyRoundInt (q * 100) : ℚ) / 100

/-- Model of Python `round(x, 1)`. -/
def round1 (q : ℚ) : ℚ := (pyRoundInt (q * 10) : ℚ) / 10

/-- A raw specification value as it appears in the JSON structures: absent or
null, a number, or a string. -/
inductive SpecValue where
  | null : SpecValue
  | num : ℚ → SpecValue
  | str : String → SpecValue
deriving DecidableEq

/-- A normalized specification value (`technical_agent_runner.py`,
`normalize_spec_value`): `None`, a float, or a lowercased stripped string. -/
inductive NormVal where
  | null : NormVal
  | num : ℚ → NormVal
  | strc : List Char → NormVal
deriving DecidableEq

/-- Python `str(v)` for a raw specification value (only reached for non-null
values). -/
def pyStrRaw : SpecValue → List Char
  | SpecValue.null => ['N', 'o', 'n', 'e']
  | SpecValue.num q => pyFloatRepr q
  | SpecValue.str s => s.data

/-- Shallow embedding of `normalize_spec_value` from
`src/technical_agent_runner.py`: `None` propagates; numbers pass through;
strings are stripped, then parsed as a float through the digit/`.`/`-`
character filter when they contain a digit, falling back to the lowercased
string on a parse failure. -/
def normalize_spec_value : SpecValue → NormVal
  | SpecValue.null => NormVal.null
  | SpecValue.num q => NormVal.num q
  | SpecValue.str v =>
      let s := trimL v.data
      if s.any isDigitB then
        match parsePyFloat (s.filter fun c => isDigitB c || c == '.' || c == '-') with
        | some q => NormVal.num q
        | Option.none => NormVal.strc (lowerL s)
      else NormVal.strc (lowerL s)

/-- Python `str(r)` for a normalized value, as used by the string branch of
`compare_values`. -/
def pyStrNorm : NormVal → List Char
  | NormVal.null => ['N', 'o', 'n', 'e']
  | NormVal.num q => pyFloatRepr q
  | NormVal.strc cs => cs

/-- Shallow embedding of `compare_values` from
`src/technical_agent_runner.py`: `None` on either side never matches; two
numbers use the exact-zero / 10%-relative-tolerance rule; anything else is
compared as lowercased text, matching on equality or substring containment in
either direction. -/
def compare_values (rfp_val oem_val : SpecValue) : Bool :=
  if rfp_val = SpecValue.null then false
  else if oem_val = SpecValue.null then false
  else
    match normalize_spec_value rfp_val, normalize_spec_value oem_val with
    | NormVal.num r, NormVal.num o =>
        if r = 0 then decide (|o - r| < 1/1000000)
        else decide (|o - r| / (if |r| > 0 then |r| else 1) ≤ 1/10)
    | r, o =>
        let rs := lowerL (pyStrNorm r)
        let os := lowerL (pyStrNorm o)
        rs == os || isInfixB rs os || isInfixB os rs

/-- One row of the per-attribute comparison breakdown (the runner's
`details[k] = {"rfp_value": ..., "oem_value": ..., "match": ...}`). -/
structure Detail where
  rfp_value : SpecValue
  oem_value : SpecValue
  matched : Bool
deriving DecidableEq

/-- A specification set: attribute name to raw value, in insertion order. -/
abbrev SpecSet := List (String × SpecValue)

/-- The runner's per-attribute step: `ov = oem_specs.get(k)` (absent gives
Python `None`, modelled by `SpecValue.null`), then `compare_values`. -/
def scoreAttr (oem_specs : SpecSet) (k : String) (rv : SpecValue) : Detail :=
  let ov := match oem_specs.lookup k with
            | some v => v
            | Option.none => SpecValue.null
  { rfp_value := rv, oem_value := ov, matched := compare_values rv ov }

/-- Shallow embedding of `spec_match_percentage` from
`src/technical_agent_runner.py`: empty requirement specs return `(0.0, {})`;
otherwise every requirement attribute is compared against the candidate's
value for that name and the match ratio is rounded to two decimals. -/
def spec_match_percentage (rfp_specs oem_specs : SpecSet) :
    ℚ × List (String × Detail) :=
  if rfp_specs.isEmpty then (0, [])
  else
    let details := rfp_specs.map fun kv => (kv.1, scoreAttr oem_specs kv.1 kv.2)
    let matched := (details.filter fun kd => kd.2.matched).length
    (round2 ((matched : ℚ) / (rfp_specs.length : ℚ) * 100), details)

/-- An RFP product as extracted upstream (`rfp_product` in the runner). -/
structure RfpProduct where
  product_name : String
  category : Option String
  quantity : Option ℚ
  specifications : SpecSet
deriving DecidableEq

/-- An OEM catalog entry (`repo` rows in the runner). -/
structure OemProduct where
  oem_name : String
  product_name : String
  sku : String
  category : Option String
  unit_price : Option ℚ
  specifications : SpecSet
deriving DecidableEq

/-- One scored recommendation row built by the ranker loop. -/
structure Scored where
  oem_name : String
  product_name : String
  sku : String
  spec_match_percentage : ℚ
  comparison : List (String × Detail)
  unit_price : ℚ
deriving DecidableEq

/-- The body of the runner's scoring loop for one candidate. -/
def mkScored (rfp_specs : SpecSet) (c : OemProduct) : Scored :=
  let pd := spec_match_percentage rfp_specs c.specifications
  { oem_name := c.oem_name
    product_name := c.product_name
    sku := c.sku
    spec_match_percentage := pd.1
    comparison := pd.2
    unit_price := c.unit_price.getD 0 }

/-- Stable descending insertion by a rational key: the new element goes in
front of the first element whose key does not exceed it, so earlier list
elements stay ahead of later ones with an equal key — the behaviour of
Python's stable `list.sort(key=..., reverse=True)`. -/
def insertByKeyDesc {α : Type} (key : α → ℚ) (x : α) : List α → List α
  | [] => [x]
  | y :: ys =>
      if key y ≤ key x then x :: y :: ys
      else y :: insertByKeyDesc key x ys

/-- Stable descending sort by a rational key (model of Python
`list.sort(key=..., reverse=True)`). -/
def sortByKeyDesc {α : Type} (key : α → ℚ) : List α → List α
  | [] => []
  | x :: xs => insertByKeyDesc key x (sortByKeyDesc key xs)

/-- The runner's category filter: keep catalog entries whose category equals
the requirement's category, or is null. -/
def keepCategory (category : Option String) (p : OemProduct) : Bool :=
  p.category == category || p.category == Option.none

/-- The `scored` list of `recommend_top_3_for_product` before sorting. -/
def scoredList (rfp_product : RfpProduct) (repo : List OemProduct) : List Scored :=
  (repo.filter (keepCategory rfp_product.category)).map
    (mkScored rfp_product.specifications)

/-- Shallow embedding of `recommend_top_3_for_product` from
`src/technical_agent_runner.py`: filter by category-or-null, score every
candidate, stable-sort descending by match percentage, keep the first 3. -/
def recommend_top_3_for_product (rfp_product : RfpProduct)
    (repo : List OemProduct) : List Scored :=
  (sortByKeyDesc (fun s => s.spec_match_percentage)
    (scoredList rfp_product repo)).take 3

/-- The selection row built for a product once a top recommendation exists
(`selected` in `process_single_rfp`). -/
structure Selection where
  product_name : String
  quantity : ℚ
  selected_oem : String
  selected_product_name : String
  sku : String
  spec_match_percentage : ℚ
  unit_price : ℚ
  total_price : ℚ
deriving DecidableEq

/-- Shallow embedding of the selection block of `process_single_rfp` from
`src/technical_agent_runner.py`: take the first recommendation if any;
`prod.get('quantity', 1)` defaults the quantity to 1 only when the key is
absent; `total_price = round(unit_price * quantity, 2)`. -/
def selectedFor (prod : RfpProduct) (repo : List OemProduct) : Option Selection :=
  match (recommend_top_3_for_product prod repo).head? with
  | Option.none => Option.none
  | some top =>
      some { product_name := prod.product_name
             quantity := prod.quantity.getD 1
             selected_oem := top.oem_name
             selected_product_name := top.product_name
             sku := top.sku
             spec_match_percentage := top.spec_match_percentage
             unit_price := top.unit_price
             total_price := round2 (top.unit_price * prod.quantity.getD 1) }

/-- The `final_selected` list of `process_single_rfp`: the selections of the
products that have one, in product order. -/
def final_selected (products : List RfpProduct) (repo : List OemProduct) :
    List Selection :=
  products.filterMap fun prod => selectedFor prod repo

/-- Model of Python `float(''.join(filter(str.isdigit, s)))`: keep only the
digits of `s` and parse them; the empty digit string raises (`Option.none`).
Used by the backend and `agent.py` comparators. -/
def floatOfDigits (cs : List Char) : Option ℚ :=
  let ds := cs.filter isDigitB
  if ds.isEmpty then Option.none else some (Rat.divInt (digitsToNat ds : ℤ) 1)

/-- The string normalisation `str(v).lower().strip()` shared by the backend
and `agent.py` comparators. -/
def lowerStrip (v : SpecValue) : List Char := trimL (lowerL (pyStrRaw v))

/-- Shallow embedding of `TechnicalAgent._compare_spec_values` from
`src/backend/agents/technical_agent.py`: exact lowercased/stripped string
equality, else parse the digit characters of both sides as numbers (any
failure is swallowed and yields no match); a zero requirement number demands
an equal candidate number, a nonzero one uses a strict 10% relative
tolerance. -/
def backendCompareSpecValues (rfp_value oem_value : SpecValue) : Bool :=
  let rfp_str := lowerStrip rfp_value
  let oem_str := lowerStrip oem_value
  if rfp_str == oem_str then true
  else
    match floatOfDigits rfp_str, floatOfDigits oem_str with
    | some rfp_num, some oem_num =>
        if rfp_num = 0 then decide (rfp_num = oem_num)
        else decide (|rfp_num - oem_num| / rfp_num < 1/10)
    | _, _ => false

/-- The backend's per-attribute step: the sentinel for an absent candidate
attribute is the string `"Not specified"`. -/
def backendScoreAttr (oem_specs : SpecSet) (k : String) (rv : SpecValue) : Detail :=
  let ov := match oem_specs.lookup k with
            | some v => v
            | Option.none => SpecValue.str "Not specified"
  { rfp_value := rv, oem_value := ov, matched := backendCompareSpecValues rv ov }

/-- Shallow embedding of `TechnicalAgent.calculate_spec_match` from
`src/backend/agents/technical_agent.py`. -/
def calculate_spec_match (rfp_specs oem_specs : SpecSet) :
    ℚ × List (String × Detail) :=
  if rfp_specs.isEmpty then (0, [])
  else
    let comparison := rfp_specs.map fun kv => (kv.1, backendScoreAttr oem_specs kv.1 kv.2)
    let matched := (comparison.filter fun kd => kd.2.matched).length
    (round2 ((matched : ℚ) / (rfp_specs.length : ℚ) * 100), comparison)

/-- A scored recommendation row of the backend ranker. -/
structure BackendScored where
  oem_name : String
  product_name : String
  sku : String
  spec_match_percentage : ℚ
  comparison_details : List (String × Detail)
  unit_price : Option ℚ
deriving DecidableEq

/-- The body of the backend scoring loop for one candidate. -/
def backendMkScored (rfp_specs : SpecSet) (c : OemProduct) : BackendScored :=
  let pd := calculate_spec_match rfp_specs c.specifications
  { oem_name := c.oem_name
    product_name := c.product_name
    sku := c.sku
    spec_match_percentage := pd.1
    comparison_details := pd.2
    unit_price := c.unit_price }

/-- Shallow embedding of `TechnicalAgent.find_top_3_recommendations` from
`src/backend/agents/technical_agent.py`.  Its candidate retrieval
(`get_oem_products_by_category`) deliberately ignores the requested category
("MVP: Ignore category to maximize matching chance") and returns the whole
`oem_products` table, so every catalog entry is scored regardless of the
`category` argument. -/
def find_top_3_recommendations (rfp_specs : SpecSet) (category : Option String)
    (oem_products : List OemProduct) : List BackendScored :=
  let _ := category
  (sortByKeyDesc (fun s => s.spec_match_percentage)
    (oem_products.map (backendMkScored rfp_specs))).take 3

/-- The three derived quantities and the additive score of
`TechnicalAgent.calculate_win_probability`: clamp to `[0, 100]` and round to
one decimal the sum of a coverage score (max 40), a quality score (max 50)
and a compliance score (10 minus 5 per sub-70% match, floored at 0). -/
def win_prob_core (coverage avg_match : ℚ) (low_matches : ℕ) : ℚ :=
  let coverage_score := coverage * 40
  let quality_score := avg_match / 100 * 50
  let compliance_score := max 0 (10 - (low_matches : ℚ) * 5)
  round1 (min 100 (max 0 (coverage_score + quality_score + compliance_score)))

/-- A selected-product row as consumed by the win-probability estimator. -/
structure SelRow where
  spec_match_percentage : ℚ

/-- Shallow embedding of `TechnicalAgent.calculate_win_probability` from
`src/backend/agents/technical_agent.py` (the additive variant the spec
adopts). -/
def calculate_win_probability (selected_products : List SelRow)
    (rfp_products : List RfpProduct) : ℚ :=
  if rfp_products.isEmpty then 0
  else if selected_products.isEmpty then 0
  else
    let coverage := (selected_products.length : ℚ) / (rfp_products.length : ℚ)
    let avg_match := (selected_products.map (fun p => p.spec_match_percentage)).sum /
      (selected_products.length : ℚ)
    let low_matches :=
      (selected_products.filter fun p => decide (p.spec_match_percentage < 70)).length
    win_prob_core coverage avg_match low_matches

/-- Division instrumented for the zero-divisor check: `Option.none` models a
raised `ZeroDivisionError`. -/
def checkedDiv (a b : ℚ) : Option ℚ := if b = 0 then Option.none else some (a / b)

/-- The body of the `try` block of `_compare_spec_values` from
`src/agent.py`: digit-parse both sides, then `abs(rfp_num - oem_num) /
rfp_num < 0.1` with no exact-zero guard; `Option.none` models an exception
escaping the `try` block (parse failure or division by zero). -/
def agentCompareTry (rfp_value oem_value : SpecValue) : Option Bool :=
  match floatOfDigits (lowerStrip rfp_value), floatOfDigits (lowerStrip oem_value) with
  | some rfp_num, some oem_num =>
      (checkedDiv (|rfp_num - oem_num|) rfp_num).map fun x => decide (x < 1/10)
  | _, _ => Option.none

/-- Shallow embedding of `_compare_spec_values` from `src/agent.py`: exact
string equality first, then the `try` block above, whose exceptions are
swallowed by `except: pass` before the final `return False`. -/
def agentCompareSpecValues (rfp_value oem_value : SpecValue) : Bool :=
  if lowerStrip rfp_value == lowerStrip oem_value then true
  else
    match agentCompareTry rfp_value oem_value with
    | some b => b
    | Option.none => false

/-- Instrumented variant of the runner's `compare_values` in which both
divisions (the tolerance quotient and nothing else) go through `checkedDiv`;
`Option.none` would model a `ZeroDivisionError`. -/
def compare_values_checked (rfp_val oem_val : SpecValue) : Option Bool :=
  if rfp_val = SpecValue.null then some false
  else if oem_val = SpecValue.null then some false
  else
    match normalize_spec_value rfp_val, normalize_spec_value oem_val with
    | NormVal.num r, NormVal.num o =>
        if r = 0 then some (decide (|o - r| < 1/1000000))
        else (checkedDiv (|o - r|) (if |r| > 0 then |r| else 1)).map
          fun x => decide (x ≤ 1/10)
    | r, o =>
        let rs := lowerL (pyStrNorm r)
        let os := lowerL (pyStrNorm o)
        some (rs == os || isInfixB rs os || isInfixB os rs)

/-- Instrumented variant of the runner's `spec_match_percentage` in which the
percentage division goes through `checkedDiv`. -/
def spec_match_percentage_checked (rfp_specs oem_specs : SpecSet) :
    Option (ℚ × List (String × Detail)) :=
  if rfp_specs.isEmpty then some (0, [])
  else
    let details := rfp_specs.map fun kv => (kv.1, scoreAttr oem_specs kv.1 kv.2)
    let matched := (details.filter fun kd => kd.2.matched).length
    (checkedDiv (matched : ℚ) (rfp_specs.length : ℚ)).map
      fun x => (round2 (x * 100), details)

/-- A row of the test-pricing table (`TestPricing` in
`src/agents/pricing_agent.py`): display name and unit price. -/
structure TestPricing where
  test_name : String
  test_price : ℚ
deriving DecidableEq

/-- One testing cost entry produced by `_calculate_testing_costs`. -/
structure TestCostEntry where
  test_requirement : String
  test_name : List Char
  price_per_test_inr : ℚ
  quantity : ℕ
  total_test_cost_inr : ℚ
deriving DecidableEq

/-- The per-requirement body of `PricingAgent._calculate_testing_costs` from
`src/agents/pricing_agent.py`: normalise the requirement
(`strip().lower()`), try an exact key lookup, then the first table key
related by substring containment in either direction, then a flat default
price of 10000; each amount is rounded to two decimals and the per-test price
is multiplied by the number of products. -/
def testEntry (test_prices : List (String × TestPricing)) (num_products : ℕ)
    (test_req : String) : TestCostEntry :=
  let test_name := lowerL (trimL test_req.data)
  let matched : Option TestPricing :=
    match test_prices.find? fun kv => kv.1.data == test_name with
    | some kv => some kv.2
    | Option.none =>
        match test_prices.find? fun kv =>
            isInfixB test_name kv.1.data || isInfixB kv.1.data test_name with
        | some kv => some kv.2
        | Option.none => Option.none
  match matched with
  | some tp =>
      { test_requirement := test_req
        test_name := tp.test_name.data
        price_per_test_inr := round2 tp.test_price
        quantity := num_products
        total_test_cost_inr := round2 (tp.test_price * (num_products : ℚ)) }
  | Option.none =>
      { test_requirement := test_req
        test_name := test_name
        price_per_test_inr := round2 10000
        quantity := num_products
        total_test_cost_inr := round2 (10000 * (num_products : ℚ)) }

/-- Shallow embedding of `PricingAgent._calculate_testing_costs`. -/
def calculate_testing_costs (test_prices : List (String × TestPricing))
    (test_requirements : List String) (num_products : ℕ) : List TestCostEntry :=
  test_requirements.map (testEntry test_prices num_products)

/-- A material cost line as consumed by `_consolidate_pricing` (only the
rounded line total is read there). -/
structure MaterialCost where
  sku : String
  total_price_inr : ℚ
deriving DecidableEq

/-- The final pricing summary of `PricingAgent._consolidate_pricing`. -/
structure PricingSummary where
  total_material_cost_inr : ℚ
  total_testing_cost_inr : ℚ
  subtotal_inr : ℚ
  contingency_10pct_inr : ℚ
  grand_total_inr : ℚ

/-- Shallow embedding of `PricingAgent._consolidate_pricing` from
`src/agents/pricing_agent.py`: sum the material and testing lines, add them,
add a 10% contingency, and round every reported amount to two decimals. -/
def consolidate_pricing (material_costs : List MaterialCost)
    (testing_costs : List TestCostEntry) : PricingSummary :=
  let total_material_cost := (material_costs.map fun m => m.total_price_inr).sum
  let total_testing_cost := (testing_costs.map fun t => t.total_test_cost_inr).sum
  let grand_total := total_material_cost + total_testing_cost
  let contingency := grand_total * (1/10)
  let final_total := grand_total + contingency
  { total_material_cost_inr := round2 total_material_cost
    total_testing_cost_inr := round2 total_testing_cost
    subtotal_inr := round2 grand_total
    contingency_10pct_inr := round2 contingency
    grand_total_inr := round2 final_total }

/-! Helper lemmas. -/

theorem pyLowerChar_toNat_of_upper (c : Char) (h : 65 ≤ c.toNat ∧ c.toNat ≤ 90) :
    (pyLowerChar c).toNat = c.toNat + 32 := by
  unfold pyLowerChar
  rw [dif_pos h]
  rfl

theorem pyLowerChar_eq_self (c : Char) (h : ¬(65 ≤ c.toNat ∧ c.toNat ≤ 90)) :
    pyLowerChar c = c := by
  unfold pyLowerChar
  rw [dif_neg h]

theorem pyLowerChar_idem (c : Char) :
    pyLowerChar (pyLowerChar c) = pyLowerChar c := by
  by_cases h : 65 ≤ c.toNat ∧ c.toNat ≤ 90
  · have h2 := pyLowerChar_toNat_of_upper c h
    have h3 : ¬(65 ≤ (pyLowerChar c).toNat ∧ (pyLowerChar c).toNat ≤ 90) := by omega
    exact pyLowerChar_eq_self _ h3
  · simp only [pyLowerChar_eq_self c h]

theorem lowerL_idem (cs : List Char) : lowerL (lowerL cs) = lowerL cs := by
  induction cs with
  | nil => rfl
  | cons c cs ih =>
      simp only [lowerL, List.map_cons] at ih ⊢
      rw [pyLowerChar_idem, ih]

/-- Strings produced by `normalize_spec_value` are already lowercased. -/
theorem normalize_strc_lower (v : SpecValue) (s : List Char)
    (hv : normalize_spec_value v = NormVal.strc s) : lowerL s = s := by
  cases v with
  | null => simp [normalize_spec_value] at hv
  | num q => simp [normalize_spec_value] at hv
  | str u =>
      simp only [normalize_spec_value] at hv
      by_cases hd : (trimL u.data).any isDigitB
      · rw [if_pos hd] at hv
        cases hp : parsePyFloat ((trimL u.data).filter fun c =>
            isDigitB c || c == '.' || c == '-') with
        | none =>
            rw [hp] at hv
            simp only [NormVal.strc.injEq] at hv
            rw [← hv, lowerL_idem]
        | some q => rw [hp] at hv; simp at hv
      · rw [if_neg hd] at hv
        simp only [NormVal.strc.injEq] at hv
        rw [← hv, lowerL_idem]

theorem isPrefixB_mem {a b : List Char} (hab : isPrefixB a b = true) :
    ∀ c ∈ a, c ∈ b := by
  induction a generalizing b with
  | nil => intro c hc; simp at hc
  | cons x xs ih =>
      cases b with
      | nil => simp [isPrefixB] at hab
      | cons y ys =>
          simp only [isPrefixB, Bool.and_eq_true, beq_iff_eq] at hab
          intro c hc
          rcases List.mem_cons.mp hc with rfl | hc2
          · exact List.mem_cons.mpr (Or.inl hab.1)
          · exact List.mem_cons.mpr (Or.inr (ih hab.2 c hc2))

theorem isInfixB_mem {a b : List Char} (hab : isInfixB a b = true) :
    ∀ c ∈ a, c ∈ b := by
  induction b with
  | nil =>
      simp only [isInfixB, List.isEmpty_iff] at hab
      subst hab; intro c hc; simp at hc
  | cons y ys ih =>
      simp only [isInfixB, Bool.or_eq_true] at hab
      rcases hab with hab | hab
      · exact isPrefixB_mem hab
      · intro c hc; exact List.mem_cons.mpr (Or.inr (ih hab c hc))

/-- The character set a `pyFloatRepr` rendering can use. -/
def isFloatChar (c : Char) : Bool := isDigitB c || c == '.' || c == '-'

theorem digitChar_isFloatChar (d : Nat) : isFloatChar (digitChar d) = true := by
  unfold digitChar
  split <;> decide

theorem natDigitsAux_class (fuel : Nat) :
    ∀ n acc, (∀ c ∈ acc, isFloatChar c = true) →
      ∀ c ∈ natDigitsAux fuel n acc, isFloatChar c = true := by
  induction fuel with
  | zero => intro n acc hacc c hc; exact hacc c hc
  | succ fuel ih =>
      intro n acc hacc c hc
      simp only [natDigitsAux] at hc
      by_cases hn : n < 10
      · rw [if_pos hn] at hc
        rcases List.mem_cons.mp hc with rfl | hc
        · exact digitChar_isFloatChar n
        · exact hacc c hc
      · rw [if_neg hn] at hc
        refine ih (n / 10) _ ?_ c hc
        intro d hd
        rcases List.mem_cons.mp hd with rfl | hd
        · exact digitChar_isFloatChar (n % 10)
        · exact hacc d hd

theorem natDigits_class (n : Nat) : ∀ c ∈ natDigits n, isFloatChar c = true :=
  natDigitsAux_class (n + 1) n [] (by intro c hc; simp at hc)

theorem decFracDigits_class (fuel : Nat) :
    ∀ rem den c, c ∈ decFracDigits fuel rem den → isFloatChar c = true := by
  induction fuel with
  | zero => intro rem den c hc; simp [decFracDigits] at hc
  | succ fuel ih =>
      intro rem den c hc
      cases rem with
      | zero => simp [decFracDigits] at hc
      | succ r =>
          simp only [decFracDigits] at hc
          rcases List.mem_cons.mp hc with rfl | hc
          · exact digitChar_isFloatChar _
          · exact ih _ den c hc

theorem pyFloatRepr_class (q : ℚ) : ∀ c ∈ pyFloatRepr q, isFloatChar c = true := by
  intro c hc
  simp only [pyFloatRepr] at hc
  rcases List.mem_append.mp hc with h1 | h2
  · rcases List.mem_append.mp h1 with hs | hd
    · split at hs
      · rcases List.mem_cons.mp hs with rfl | hs
        · decide
        · simp at hs
      · simp at hs
    · exact natDigits_class _ c hd
  · rcases List.mem_cons.mp h2 with rfl | ht
    · decide
    · split at ht
      · rcases List.mem_cons.mp ht with rfl | ht
        · decide
        · simp at ht
      · exact decFracDigits_class 60 _ _ c ht

theorem pyFloatRepr_dot (q : ℚ) : '.' ∈ pyFloatRepr q := by
  simp [pyFloatRepr]

theorem pyLowerChar_of_floatChar (c : Char) (h : isFloatChar c = true) :
    pyLowerChar c = c := by
  simp only [isFloatChar, isDigitB, Bool.or_eq_true, Bool.and_eq_true,
    decide_eq_true_eq, beq_iff_eq] at h
  rcases h with (h | h) | h
  · exact pyLowerChar_eq_self c (by omega)
  · subst h; decide
  · subst h; decide

theorem lowerL_fixed (cs : List Char) (h : ∀ c ∈ cs, pyLowerChar c = c) :
    lowerL cs = cs := by
  induction cs with
  | nil => rfl
  | cons c cs ih =>
      simp only [lowerL, List.map_cons] at ih ⊢
      rw [h c (by simp), ih fun d hd => h d (by simp [hd])]

theorem lowerL_pyFloatRepr (q : ℚ) : lowerL (pyFloatRepr q) = pyFloatRepr q :=
  lowerL_fixed _ fun c hc => pyLowerChar_of_floatChar c (pyFloatRepr_class q c hc)

/-! C3. -/

/-- C3: a requirement with an empty specification set scores `(0.0, {})`
against every candidate specification set, in both the runner scorer
(`spec_match_percentage`) and the backend scorer (`calculate_spec_match`). -/
theorem c3_empty_requirement_specs (oem_specs : SpecSet) :
    spec_match_percentage [] oem_specs = (0, []) ∧
    calculate_spec_match [] oem_specs = (0, []) :=
  ⟨rfl, rfl⟩

/-! C1. -/

/-- C1 counterexample: with a requirement value of exactly 0, the runner
comparator accepts the nonzero candidate `5e-7` (its zero branch tolerates
`abs(candidate) < 1e-6` instead of demanding an exactly-zero candidate). -/
theorem c1_counterexample :
    compare_values (SpecValue.num 0) (SpecValue.num (1/2000000)) = true ∧
    (1/2000000 : ℚ) ≠ 0 := by
  constructor
  · norm_num [compare_values, normalize_spec_value]
    refine ⟨by decide, by decide, ?_⟩
    rw [abs_of_pos (show (0:ℚ) < 1/2000000 by norm_num)]
    norm_num
  · norm_num

/-- C1 (amended): for values normalizing to numbers, a requirement of exactly
0 matches iff the candidate is within `1e-6` of 0 (not necessarily exactly
0); a nonzero requirement `r` matches iff
`abs(candidate - r) / abs(r) ≤ 0.10`, so in particular a 5% increase matches
and a 50% increase does not. -/
theorem c1_numeric_tolerance (v w : SpecValue) (q o : ℚ)
    (hv : normalize_spec_value v = NormVal.num q)
    (hw : normalize_spec_value w = NormVal.num o) :
    compare_values v w =
      (if q = 0 then decide (|o| < 1/1000000) else decide (|o - q| / |q| ≤ 1/10)) ∧
    (0 < q → o = q * (21/20) → compare_values v w = true) ∧
    (0 < q → o = q * (3/2) → compare_values v w = false) := by
  have hvn : v ≠ SpecValue.null := by
    rintro rfl; simp [normalize_spec_value] at hv
  have hwn : w ≠ SpecValue.null := by
    rintro rfl; simp [normalize_spec_value] at hw
  have hmain : compare_values v w =
      (if q = 0 then decide (|o| < 1/1000000) else decide (|o - q| / |q| ≤ 1/10)) := by
    simp only [compare_values, if_neg hvn, if_neg hwn, hv, hw]
    by_cases hq : q = 0
    · subst hq; simp
    · have habs : |q| > 0 := abs_pos.mpr hq
      rw [if_neg hq, if_neg hq, if_pos habs]
  refine ⟨hmain, ?_, ?_⟩
  · intro hq ho
    rw [hmain, if_neg (ne_of_gt hq)]
    subst ho
    have : |q * (21/20) - q| / |q| = 1/20 := by
      rw [show q * (21/20) - q = q * (1/20) by ring, abs_mul]
      rw [abs_of_pos (by norm_num : (0:ℚ) < 1/20)]
      field_simp
      ring
    rw [this]
    norm_num
  · intro hq ho
    rw [hmain, if_neg (ne_of_gt hq)]
    subst ho
    have : |q * (3/2) - q| / |q| = 1/2 := by
      rw [show q * (3/2) - q = q * (1/2) by ring, abs_mul]
      rw [abs_of_pos (by norm_num : (0:ℚ) < 1/2)]
      field_simp
      ring
    rw [this]
    norm_num

/-- C1 witness: the amended theorem applied at requirement 5, candidate 5.25
(a 5% increase, inside the band). -/
theorem c1_numeric_tolerance_witness :
    compare_values (SpecValue.num 5) (SpecValue.num (21/4)) = true := by
  have h := c1_numeric_tolerance (SpecValue.num 5) (SpecValue.num (21/4)) 5 (21/4)
    rfl rfl
  exact h.2.1 (by norm_num) (by norm_num)

/-! C2. -/

/-- C2 counterexample: `"xlpe"` and `"xlpe insulated"` both normalize to
strings and one is a substring of the other, yet the backend comparator
(`_compare_spec_values` in `src/backend/agents/technical_agent.py`) rejects
the pair: it has no substring branch. -/
theorem c2_counterexample :
    normalize_spec_value (SpecValue.str "xlpe") = NormVal.strc "xlpe".data ∧
    normalize_spec_value (SpecValue.str "xlpe insulated") =
      NormVal.strc "xlpe insulated".data ∧
    isInfixB "xlpe".data "xlpe insulated".data = true ∧
    backendCompareSpecValues (SpecValue.str "xlpe")
      (SpecValue.str "xlpe insulated") = false := by
  refine ⟨by decide, by decide, by decide, by decide⟩

/-- C2 (amended): for value pairs that both normalize to strings, the runner
comparator (`compare_values`) matches exactly on equality or substring
containment in either direction, as the claim states; the backend comparator
(`_compare_spec_values`), however, matches digit-free values only on exact
(lowercased, stripped) equality — it has no substring branch. -/
theorem c2_string_matching (v w : SpecValue) (s t : List Char)
    (hv : normalize_spec_value v = NormVal.strc s)
    (hw : normalize_spec_value w = NormVal.strc t) :
    (compare_values v w = true ↔
      s = t ∨ isInfixB s t = true ∨ isInfixB t s = true) ∧
    (∀ a b : SpecValue, (lowerStrip a).filter isDigitB = [] →
      (lowerStrip b).filter isDigitB = [] →
      backendCompareSpecValues a b = (lowerStrip a == lowerStrip b)) := by
  constructor
  · have hvn : v ≠ SpecValue.null := by
      rintro rfl; simp [normalize_spec_value] at hv
    have hwn : w ≠ SpecValue.null := by
      rintro rfl; simp [normalize_spec_value] at hw
    simp only [compare_values, if_neg hvn, if_neg hwn, hv, hw, pyStrNorm]
    rw [normalize_strc_lower v s hv, normalize_strc_lower w t hw]
    simp only [Bool.or_eq_true, beq_iff_eq]
    exact or_assoc
  · intro a b ha hb
    simp only [backendCompareSpecValues]
    by_cases he : (lowerStrip a == lowerStrip b) = true
    · rw [if_pos he, he]
    · rw [if_neg he]
      have hfa : floatOfDigits (lowerStrip a) = Option.none := by
        simp [floatOfDigits, ha]
      rw [hfa]
      rw [Bool.not_eq_true] at he
      rw [he]

/-- C2 witness: the amended runner clause applied to the spec's own example
pair, `"xlpe"` against `"XLPE insulated"`. -/
theorem c2_string_matching_witness :
    compare_values (SpecValue.str "xlpe") (SpecValue.str "XLPE insulated") = true := by
  have h := c2_string_matching (SpecValue.str "xlpe")
    (SpecValue.str "XLPE insulated") "xlpe".data "xlpe insulated".data
    (by decide) (by decide)
  exact h.1.mpr (Or.inr (Or.inl (by decide)))

/-! C8. -/

/-- C8 counterexample: in the backend scorer, the `"Not specified"` sentinel
for an absent candidate attribute can satisfy the comparator — a requirement
whose extracted value is itself the string `"Not specified"` is recorded as
matched (and scores 100%) against a candidate that lacks the attribute
entirely. -/
theorem c8_counterexample :
    ((calculate_spec_match [("armour", SpecValue.str "Not specified")] []).2.map
      fun kd => (kd.1, kd.2.matched)) = [("armour", true)] ∧
    (calculate_spec_match [("armour", SpecValue.str "Not specified")] []).1 = 100 := by
  constructor
  · decide
  · have hm : (backendScoreAttr [] "armour" (SpecValue.str "Not specified")).matched
        = true := by decide
    simp only [calculate_spec_match, List.isEmpty_cons, if_false, Bool.false_eq_true]
    norm_num [List.filter, hm, round2, pyRoundInt]

/-- C8 (amended): when a requirement attribute is absent from the candidate
specification set, the runner scorer always records `matched = false` (its
`None` sentinel can never satisfy `compare_values`); the backend scorer
records `matched = false` for every requirement value except one whose
lowercased stripped text is exactly the sentinel string `"not specified"`. -/
theorem c8_absent_attribute (oem_specs : SpecSet) (k : String) (rv : SpecValue)
    (habs : List.lookup k oem_specs = Option.none) :
    (scoreAttr oem_specs k rv).matched = false ∧
    (lowerStrip rv ≠ "not specified".data →
      (backendScoreAttr oem_specs k rv).matched = false) := by
  constructor
  · simp only [scoreAttr, habs]
    by_cases hr : rv = SpecValue.null <;> simp [compare_values, hr]
  · intro hne
    simp only [backendScoreAttr, habs]
    have hsent : lowerStrip (SpecValue.str "Not specified") = "not specified".data := by
      decide
    simp only [backendCompareSpecValues, hsent]
    have he : (lowerStrip rv == "not specified".data) = false := by
      rw [beq_eq_false_iff_ne]; exact hne
    rw [he]
    have hd : floatOfDigits "not specified".data = Option.none := by decide
    rw [hd]
    simp only [Bool.false_eq_true, if_false]
    cases floatOfDigits (lowerStrip rv) <;> rfl

/-- C8 witness: the amended theorem applied to a requirement attribute
`"voltage"` with value `"11kv"` against an empty candidate specification
set. -/
theorem c8_absent_attribute_witness :
    (scoreAttr [] "voltage" (SpecValue.str "11kv")).matched = false ∧
    (backendScoreAttr [] "voltage" (SpecValue.str "11kv")).matched = false := by
  have h := c8_absent_attribute [] "voltage" (SpecValue.str "11kv") rfl
  exact ⟨h.1, h.2 (by decide)⟩

/-! C9. -/

/-- C9 counterexample: `"1"` normalizes to the number 1.0 while `"-1.0-"`
normalizes to a string (its filtered form fails the float parse), yet the
runner comparator accepts the pair: the mixed branch compares `str(1.0) =
"1.0"` against `"-1.0-"`, and the former is a substring of the latter. -/
theorem c9_counterexample :
    normalize_spec_value (SpecValue.str "1") = NormVal.num 1 ∧
    normalize_spec_value (SpecValue.str "-1.0-") = NormVal.strc "-1.0-".data ∧
    compare_values (SpecValue.str "1") (SpecValue.str "-1.0-") = true := by
  refine ⟨by decide, by decide, by decide⟩

/-- C9 (amended): a pair that normalizes to one number and one string — in
either orientation — falls through to the textual branch, which compares the
decimal rendering of the number with the string; such pairs can match (see
the counterexample), but whenever the string side is nonempty and contains
none of the characters a decimal rendering can use (digits, `'.'`, `'-'`),
the comparator returns false, whichever side holds the number. -/
theorem c9_mixed_types (v w : SpecValue) (q : ℚ) (s : List Char)
    (hne : s ≠ [])
    (hchars : ∀ c ∈ s, isFloatChar c = false) :
    (normalize_spec_value v = NormVal.num q →
      normalize_spec_value w = NormVal.strc s → compare_values v w = false) ∧
    (normalize_spec_value v = NormVal.strc s →
      normalize_spec_value w = NormVal.num q → compare_values v w = false) := by
  have hdot : '.' ∉ s := by
    intro hmem
    have := hchars '.' hmem
    simp [isFloatChar] at this
  have h1 : (pyFloatRepr q == s) = false := by
    rw [beq_eq_false_iff_ne]
    intro he
    exact hdot (he ▸ pyFloatRepr_dot q)
  have h2 : (s == pyFloatRepr q) = false := by
    rw [beq_eq_false_iff_ne]
    intro he
    exact hdot (he.symm ▸ pyFloatRepr_dot q)
  have h3 : isInfixB (pyFloatRepr q) s = false := by
    by_contra hinf
    rw [Bool.not_eq_false] at hinf
    exact hdot (isInfixB_mem hinf '.' (pyFloatRepr_dot q))
  have h4 : isInfixB s (pyFloatRepr q) = false := by
    by_contra hinf
    rw [Bool.not_eq_false] at hinf
    rcases List.exists_mem_of_ne_nil s hne with ⟨c, hc⟩
    have hm := isInfixB_mem hinf c hc
    have hcl := pyFloatRepr_class q c hm
    have hfc := hchars c hc
    rw [hcl] at hfc
    simp at hfc
  constructor
  · intro hv hw
    have hvn : v ≠ SpecValue.null := by
      rintro rfl; simp [normalize_spec_value] at hv
    have hwn : w ≠ SpecValue.null := by
      rintro rfl; simp [normalize_spec_value] at hw
    simp only [compare_values, if_neg hvn, if_neg hwn, hv, hw, pyStrNorm]
    rw [lowerL_pyFloatRepr, normalize_strc_lower w s hw]
    simp only [Bool.or_eq_false_iff]
    exact ⟨⟨h1, h3⟩, h4⟩
  · intro hv hw
    have hvn : v ≠ SpecValue.null := by
      rintro rfl; simp [normalize_spec_value] at hv
    have hwn : w ≠ SpecValue.null := by
      rintro rfl; simp [normalize_spec_value] at hw
    simp only [compare_values, if_neg hvn, if_neg hwn, hv, hw, pyStrNorm]
    rw [lowerL_pyFloatRepr, normalize_strc_lower v s hv]
    simp only [Bool.or_eq_false_iff]
    exact ⟨⟨h2, h4⟩, h3⟩

/-- C9 witness: the amended theorem applied in both orientations to `"95"`
(a number after normalization) and `"xlpe"` (a digit-free string): neither
direction matches. -/
theorem c9_mixed_types_witness :
    compare_values (SpecValue.str "95") (SpecValue.str "xlpe") = false ∧
    compare_values (SpecValue.str "xlpe") (SpecValue.str "95") = false := by
  have ha := c9_mixed_types (SpecValue.str "95") (SpecValue.str "xlpe") 95 "xlpe".data
    (by decide) (by decide)
  have hb := c9_mixed_types (SpecValue.str "xlpe") (SpecValue.str "95") 95 "xlpe".data
    (by decide) (by decide)
  exact ⟨ha.1 (by decide) (by decide), hb.2 (by decide) (by decide)⟩

/-! Stable-sort lemmas for the ranker. -/

theorem insertByKeyDesc_length {α : Type} (key : α → ℚ) (x : α) (l : List α) :
    (insertByKeyDesc key x l).length = l.length + 1 := by
  induction l with
  | nil => rfl
  | cons y ys ih =>
      simp only [insertByKeyDesc]
      by_cases h : key y ≤ key x
      · rw [if_pos h]; rfl
      · rw [if_neg h]; simp [ih]

theorem sortByKeyDesc_length {α : Type} (key : α → ℚ) (l : List α) :
    (sortByKeyDesc key l).length = l.length := by
  induction l with
  | nil => rfl
  | cons x xs ih => simp [sortByKeyDesc, insertByKeyDesc_length, ih]

theorem insertByKeyDesc_mem {α : Type} (key : α → ℚ) (x : α) (l : List α) (a : α) :
    a ∈ insertByKeyDesc key x l ↔ a = x ∨ a ∈ l := by
  induction l with
  | nil => simp [insertByKeyDesc]
  | cons y ys ih =>
      simp only [insertByKeyDesc]
      by_cases h : key y ≤ key x
      · rw [if_pos h]; simp [List.mem_cons]
      · rw [if_neg h]
        simp only [List.mem_cons, ih]
        tauto

theorem sortByKeyDesc_mem {α : Type} (key : α → ℚ) (l : List α) (a : α) :
    a ∈ sortByKeyDesc key l ↔ a ∈ l := by
  induction l with
  | nil => simp [sortByKeyDesc]
  | cons x xs ih =>
      simp only [sortByKeyDesc, insertByKeyDesc_mem, List.mem_cons, ih]

theorem insertByKeyDesc_pairwise {α : Type} (key : α → ℚ) (x : α) (l : List α)
    (hl : l.Pairwise fun a b => key b ≤ key a) :
    (insertByKeyDesc key x l).Pairwise fun a b => key b ≤ key a := by
  induction l with
  | nil => simp [insertByKeyDesc]
  | cons y ys ih =>
      rw [List.pairwise_cons] at hl
      obtain ⟨hy, hys⟩ := hl
      simp only [insertByKeyDesc]
      by_cases h : key y ≤ key x
      · rw [if_pos h]
        refine List.pairwise_cons.mpr ⟨?_, List.pairwise_cons.mpr ⟨hy, hys⟩⟩
        intro z hz
        rcases List.mem_cons.mp hz with rfl | hz
        · exact h
        · exact le_trans (hy z hz) h
      · rw [if_neg h]
        refine List.pairwise_cons.mpr ⟨?_, ih hys⟩
        intro z hz
        rcases (insertByKeyDesc_mem key x ys z).mp hz with rfl | hz
        · exact le_of_not_le h
        · exact hy z hz

theorem sortByKeyDesc_sorted {α : Type} (key : α → ℚ) (l : List α) :
    (sortByKeyDesc key l).Pairwise fun a b => key b ≤ key a := by
  induction l with
  | nil => simp [sortByKeyDesc]
  | cons x xs ih => exact insertByKeyDesc_pairwise key x _ ih

theorem insertByKeyDesc_filter {α : Type} (key : α → ℚ) (x : α) (l : List α) (p : ℚ) :
    (insertByKeyDesc key x l).filter (fun a => key a == p) =
      if key x == p then x :: l.filter (fun a => key a == p)
      else l.filter (fun a => key a == p) := by
  induction l with
  | nil =>
      by_cases hx : (key x == p) = true <;>
        simp [insertByKeyDesc, List.filter_cons, hx]
  | cons y ys ih =>
      simp only [insertByKeyDesc]
      by_cases h : key y ≤ key x
      · rw [if_pos h]
        by_cases hx : (key x == p) = true <;>
          simp [List.filter_cons, hx]
      · rw [if_neg h]
        rw [List.filter_cons, ih]
        by_cases hx : (key x == p) = true
        · have hy : (key y == p) = false := by
            rw [beq_iff_eq] at hx
            rw [beq_eq_false_iff_ne]
            intro hye
            exact h (le_of_eq (hye.trans hx.symm))
          simp [List.filter_cons, hx, hy]
        · by_cases hy : (key y == p) = true <;>
            simp [List.filter_cons, hx, hy]

theorem sortByKeyDesc_filter {α : Type} (key : α → ℚ) (l : List α) (p : ℚ) :
    (sortByKeyDesc key l).filter (fun a => key a == p) =
      l.filter (fun a => key a == p) := by
  induction l with
  | nil => rfl
  | cons x xs ih =>
      simp only [sortByKeyDesc]
      rw [insertByKeyDesc_filter, ih, List.filter_cons]

theorem filter_take_prefix {α : Type} (P : α → Bool) (n : Nat) (l : List α) :
    ∃ m, (l.take n).filter P = (l.filter P).take m := by
  induction l generalizing n with
  | nil => exact ⟨0, by simp⟩
  | cons x xs ih =>
      cases n with
      | zero => exact ⟨0, by simp⟩
      | succ n =>
          obtain ⟨m, hm⟩ := ih n
          by_cases hx : P x = true
          · exact ⟨m + 1, by simp [List.take_succ_cons, List.filter_cons, hx, hm]⟩
          · exact ⟨m, by simp [List.take_succ_cons, List.filter_cons, hx, hm]⟩

/-! C4. -/

/-- C4 counterexample: the backend ranker scores a catalog entry whose
category (`"Sensor"`) differs from the requested category (`"Pump"`) and is
not null (its candidate retrieval deliberately ignores the category), while
the runner ranker excludes it — so the claim "considers exactly the entries
whose category equals the requirement's category or is null" fails on the
backend variant. -/
theorem c4_counterexample :
    ((find_top_3_recommendations [("range_bar", SpecValue.str "0-10")]
        (some "Pump")
        [⟨"SafeSensors", "PressureSense P1", "SS-P1", some "Sensor", some 150,
          [("range_bar", SpecValue.str "0-10")]⟩]).map fun r => r.sku) = ["SS-P1"] ∧
    recommend_top_3_for_product
      ⟨"Pressure transmitter", some "Pump", some 1,
        [("range_bar", SpecValue.str "0-10")]⟩
      [⟨"SafeSensors", "PressureSense P1", "SS-P1", some "Sensor", some 150,
        [("range_bar", SpecValue.str "0-10")]⟩] = [] := by
  refine ⟨by decide, by decide⟩

/-- C4 (amended): the runner's ranker considers exactly the catalog entries
whose category equals the requirement's category or is null, scores each with
the spec-match scorer, stable-sorts descending by match percentage (equal
percentages keep catalog iteration order, witnessed by the filtered-prefix
clause), and returns the first `min(3, number of candidates)` recommendations
without padding or erroring; the backend variant keeps the same sort and
truncation but scores every catalog entry regardless of category, because its
candidate retrieval deliberately ignores the category argument. -/
theorem c4_ranker (rfp_product : RfpProduct) (repo : List OemProduct) :
    (recommend_top_3_for_product rfp_product repo).length =
      min 3 (repo.filter (keepCategory rfp_product.category)).length ∧
    (recommend_top_3_for_product rfp_product repo).Pairwise
      (fun a b => b.spec_match_percentage ≤ a.spec_match_percentage) ∧
    (∀ rec ∈ recommend_top_3_for_product rfp_product repo,
      ∃ c ∈ repo, keepCategory rfp_product.category c = true ∧
        rec = mkScored rfp_product.specifications c) ∧
    (∀ p : ℚ, ∃ m,
      (recommend_top_3_for_product rfp_product repo).filter
          (fun r => r.spec_match_percentage == p) =
        ((scoredList rfp_product repo).filter
          (fun r => r.spec_match_percentage == p)).take m) ∧
    (∀ (specs : SpecSet) (category : Option String) (catalog : List OemProduct),
      (find_top_3_recommendations specs category catalog).length =
        min 3 catalog.length ∧
      ∀ rec ∈ find_top_3_recommendations specs category catalog,
        ∃ c ∈ catalog, rec = backendMkScored specs c) := by
  refine ⟨?_, ?_, ?_, ?_, ?_⟩
  · simp [recommend_top_3_for_product, List.length_take, sortByKeyDesc_length,
      scoredList, List.length_map]
  · exact ((sortByKeyDesc_sorted _ _).sublist (List.take_sublist _ _))
  · intro rec hrec
    have h1 : rec ∈ sortByKeyDesc (fun s => s.spec_match_percentage)
        (scoredList rfp_product repo) :=
      (List.take_sublist _ _).subset hrec
    have h2 : rec ∈ scoredList rfp_product repo := (sortByKeyDesc_mem _ _ _).mp h1
    simp only [scoredList, List.mem_map, List.mem_filter] at h2
    obtain ⟨c, ⟨hcr, hck⟩, hc⟩ := h2
    exact ⟨c, hcr, hck, hc.symm⟩
  · intro p
    obtain ⟨m, hm⟩ := filter_take_prefix
      (fun r : Scored => r.spec_match_percentage == p) 3
      (sortByKeyDesc (fun s => s.spec_match_percentage) (scoredList rfp_product repo))
    exact ⟨m, by rw [recommend_top_3_for_product, hm, sortByKeyDesc_filter]⟩
  · intro specs category catalog
    constructor
    · simp [find_top_3_recommendations, List.length_take, sortByKeyDesc_length,
        List.length_map]
    · intro rec hrec
      have h1 : rec ∈ sortByKeyDesc (fun s => s.spec_match_percentage)
          (catalog.map (backendMkScored specs)) :=
        (List.take_sublist _ _).subset hrec
      have h2 := (sortByKeyDesc_mem _ _ _).mp h1
      simp only [List.mem_map] at h2
      obtain ⟨c, hcr, hc⟩ := h2
      exact ⟨c, hcr, hc.symm⟩

/-- C4 witness: the amended theorem applied to a one-entry catalog whose
category matches the requirement: the ranker returns exactly that one
recommendation. -/
theorem c4_ranker_witness :
    (recommend_top_3_for_product
      ⟨"Main pump", some "Pump", some 4, [("power_kw", SpecValue.str "15")]⟩
      [⟨"Acme", "AC Pump 1000", "AC-PUMP-1000", some "Pump", some 1200,
        [("power_kw", SpecValue.str "15")]⟩]).length = 1 := by
  have h := (c4_ranker
    ⟨"Main pump", some "Pump", some 4, [("power_kw", SpecValue.str "15")]⟩
    [⟨"Acme", "AC Pump 1000", "AC-PUMP-1000", some "Pump", some 1200,
      [("power_kw", SpecValue.str "15")]⟩]).1
  rw [h]
  decide

/-! C5. -/

/-- C5 counterexample: a requirement whose quantity key is present with value
0 keeps that zero (the only default, 1, applies when the key is absent), so
the rank-1 selection line has `total_price = 0` — no fixed non-zero fallback
(such as 1000) exists. -/
theorem c5_counterexample :
    ((selectedFor
        ⟨"Main pump", some "Pump", some 0, []⟩
        [⟨"Acme", "AC Pump 1000", "AC-PUMP-1000", some "Pump", some 100, []⟩]).map
      fun sel => (sel.quantity, sel.unit_price, sel.total_price)) =
      some (0, 100, 0) := by
  have hf : (List.filter (keepCategory (some "Pump"))
      [(⟨"Acme", "AC Pump 1000", "AC-PUMP-1000", some "Pump", some 100, []⟩ :
        OemProduct)]) =
      [⟨"Acme", "AC Pump 1000", "AC-PUMP-1000", some "Pump", some 100, []⟩] := by
    decide
  simp only [selectedFor, recommend_top_3_for_product, scoredList, hf,
    List.map_cons, List.map_nil, sortByKeyDesc, insertByKeyDesc, List.take_nil,
    List.take_succ_cons, List.head?_cons, Option.map_some]
  simp only [mkScored, spec_match_percentage, Option.getD_some]
  norm_num [round2, pyRoundInt]

/-- C5 (amended): every selection line satisfies
`total_price = round(unit_price × quantity, 2)` where the quantity is the
requirement's quantity with a default of 1 applied only when the quantity is
absent; a present zero quantity is used as-is (producing a zero line total),
and no 1000-unit fallback exists. -/
theorem c5_selection_pricing (prod : RfpProduct) (repo : List OemProduct)
    (sel : Selection) (hsel : selectedFor prod repo = some sel) :
    sel.quantity = prod.quantity.getD 1 ∧
    sel.total_price = round2 (sel.unit_price * prod.quantity.getD 1) := by
  simp only [selectedFor] at hsel
  cases hh : (recommend_top_3_for_product prod repo).head? with
  | none => rw [hh] at hsel; simp at hsel
  | some top =>
      rw [hh] at hsel
      simp only [Option.some.injEq] at hsel
      subst hsel
      exact ⟨rfl, rfl⟩

/-- C5 witness: the amended theorem applied to a requirement with quantity 4
and a catalog entry priced 1200. -/
theorem c5_selection_pricing_witness :
    ((selectedFor
        ⟨"Main pump", some "Pump", some 4, []⟩
        [⟨"Acme", "AC Pump 1000", "AC-PUMP-1000", some "Pump", some 1200, []⟩]).map
      fun sel => (sel.quantity, sel.total_price)) =
      some (4, round2 (1200 * 4)) := by
  have heval : selectedFor
      ⟨"Main pump", some "Pump", some 4, []⟩
      [⟨"Acme", "AC Pump 1000", "AC-PUMP-1000", some "Pump", some 1200, []⟩] =
      some ⟨"Main pump", 4, "Acme", "AC Pump 1000", "AC-PUMP-1000", 0, 1200,
        round2 (1200 * 4)⟩ := rfl
  obtain ⟨h1, h2⟩ := c5_selection_pricing _ _ _ heval
  rw [heval, Option.map_some', Option.some.injEq, Prod.mk.injEq]
  exact ⟨h1, h2⟩

/-! C6. -/

/-- C6: the testing-cost and consolidation pipeline of the pricing agent:
an exact key hit prices the test from the table; with no exact hit, the first
key related by substring containment is used; with no related key at all, a
flat default price of 10000 applies; each testing line multiplies the test
price by the number of products; the consolidated summary reports
`subtotal = material + testing`, a grand total of `1.10 ×` that subtotal, and
rounds every reported amount to two decimals; and the claim's end-to-end
example (`"routine_test_mv"` at 8000.0 with 2 products) yields a per-test
price of 8000.0 and a line total of 16000.0. -/
theorem c6_pricing (test_prices : List (String × TestPricing)) (num_products : ℕ) :
    (∀ (req : String) (kvp : String × TestPricing),
      test_prices.find? (fun kv => kv.1.data == lowerL (trimL req.data)) = some kvp →
        (testEntry test_prices num_products req).price_per_test_inr =
          round2 kvp.2.test_price ∧
        (testEntry test_prices num_products req).total_test_cost_inr =
          round2 (kvp.2.test_price * (num_products : ℚ))) ∧
    (∀ (req : String) (kvp : String × TestPricing),
      test_prices.find? (fun kv => kv.1.data == lowerL (trimL req.data)) =
        Option.none →
      test_prices.find? (fun kv =>
          isInfixB (lowerL (trimL req.data)) kv.1.data ||
          isInfixB kv.1.data (lowerL (trimL req.data))) = some kvp →
        (testEntry test_prices num_products req).price_per_test_inr =
          round2 kvp.2.test_price ∧
        (testEntry test_prices num_products req).total_test_cost_inr =
          round2 (kvp.2.test_price * (num_products : ℚ))) ∧
    (∀ req : String,
      test_prices.find? (fun kv => kv.1.data == lowerL (trimL req.data)) =
        Option.none →
      test_prices.find? (fun kv =>
          isInfixB (lowerL (trimL req.data)) kv.1.data ||
          isInfixB kv.1.data (lowerL (trimL req.data))) = Option.none →
        (testEntry test_prices num_products req).price_per_test_inr =
          round2 10000 ∧
        (testEntry test_prices num_products req).total_test_cost_inr =
          round2 (10000 * (num_products : ℚ))) ∧
    (∀ (material_costs : List MaterialCost) (testing_costs : List TestCostEntry),
      (consolidate_pricing material_costs testing_costs).total_testing_cost_inr =
        round2 ((testing_costs.map fun t => t.total_test_cost_inr).sum) ∧
      (consolidate_pricing material_costs testing_costs).subtotal_inr =
        round2 ((material_costs.map fun m => m.total_price_inr).sum +
          (testing_costs.map fun t => t.total_test_cost_inr).sum) ∧
      (consolidate_pricing material_costs testing_costs).grand_total_inr =
        round2 (((material_costs.map fun m => m.total_price_inr).sum +
          (testing_costs.map fun t => t.total_test_cost_inr).sum) * (11/10))) ∧
    ((testEntry [("routine_test_mv", ⟨"Routine Test - MV Cable", 8000⟩)] 2
        "routine_test_mv").price_per_test_inr = 8000 ∧
      (testEntry [("routine_test_mv", ⟨"Routine Test - MV Cable", 8000⟩)] 2
        "routine_test_mv").total_test_cost_inr = 16000) := by
  refine ⟨?_, ?_, ?_, ?_, ?_⟩
  · intro req kvp hex
    simp [testEntry, hex]
  · intro req kvp hex hpart
    simp [testEntry, hex, hpart]
  · intro req hex hpart
    simp [testEntry, hex, hpart]
  · intro material_costs testing_costs
    refine ⟨rfl, rfl, ?_⟩
    simp only [consolidate_pricing]
    congr 1
    ring
  · have hfind : ([("routine_test_mv",
        (⟨"Routine Test - MV Cable", 8000⟩ : TestPricing))].find? fun kv =>
          kv.1.data == lowerL (trimL "routine_test_mv".data)) =
        some ("routine_test_mv", ⟨"Routine Test - MV Cable", 8000⟩) := by
      decide
    constructor
    · simp only [testEntry, hfind]
      norm_num [round2, pyRoundInt]
    · simp only [testEntry, hfind]
      norm_num [round2, pyRoundInt]

/-- C6 witness: the exact-hit clause applied to the claim's example table. -/
theorem c6_pricing_witness :
    (testEntry [("routine_test_mv", ⟨"Routine Test - MV Cable", 8000⟩)] 2
      "routine_test_mv").price_per_test_inr = round2 8000 := by
  have h := (c6_pricing
    [("routine_test_mv", ⟨"Routine Test - MV Cable", 8000⟩)] 2).1
    "routine_test_mv" ("routine_test_mv", ⟨"Routine Test - MV Cable", 8000⟩)
    (by decide)
  exact h.1

/-! C7. -/

theorem pyRoundInt_mono {a b : ℚ} (h : a ≤ b) : pyRoundInt a ≤ pyRoundInt b :=
  Int.floor_mono (add_le_add_right h (1/2))

theorem round1_mono {a b : ℚ} (h : a ≤ b) : round1 a ≤ round1 b := by
  unfold round1
  have h10 := pyRoundInt_mono (mul_le_mul_of_nonneg_right h (by norm_num : (0:ℚ) ≤ 10))
  exact (div_le_div_iff_of_pos_right (by norm_num : (0:ℚ) < 10)).mpr (by exact_mod_cast h10)

/-- Monotone step shared by the three clauses: the clamped, rounded score is
monotone in the raw additive score. -/
theorem win_core_raw_mono {e f : ℚ} (h : e ≤ f) :
    round1 (min 100 (max 0 e)) ≤ round1 (min 100 (max 0 f)) :=
  round1_mono (min_le_min le_rfl (max_le_max le_rfl h))

/-- C7: the additive win-probability score is monotone in its three inputs:
nondecreasing in coverage, nondecreasing in average match quality, and
nonincreasing in the number of sub-70% matches; `calculate_win_probability`
is exactly `win_prob_core` applied to the three statistics of nonempty
selection/requirement lists. -/
theorem c7_win_probability_monotone (cov cov2 avg avg2 : ℚ) (low low2 : ℕ) :
    (cov ≤ cov2 → win_prob_core cov avg low ≤ win_prob_core cov2 avg low) ∧
    (avg ≤ avg2 → win_prob_core cov avg low ≤ win_prob_core cov avg2 low) ∧
    (low ≤ low2 → win_prob_core cov avg low2 ≤ win_prob_core cov avg low) ∧
    (∀ (sp : List SelRow) (rp : List RfpProduct), sp ≠ [] → rp ≠ [] →
      calculate_win_probability sp rp =
        win_prob_core ((sp.length : ℚ) / (rp.length : ℚ))
          ((sp.map fun p => p.spec_match_percentage).sum / (sp.length : ℚ))
          ((sp.filter fun p => decide (p.spec_match_percentage < 70)).length)) := by
  refine ⟨?_, ?_, ?_, ?_⟩
  · intro h
    apply win_core_raw_mono
    have : cov * 40 ≤ cov2 * 40 :=
      mul_le_mul_of_nonneg_right h (by norm_num)
    exact add_le_add (add_le_add this le_rfl) le_rfl
  · intro h
    apply win_core_raw_mono
    have h1 : avg / 100 ≤ avg2 / 100 :=
      (div_le_div_iff_of_pos_right (by norm_num : (0:ℚ) < 100)).mpr h
    have h2 : avg / 100 * 50 ≤ avg2 / 100 * 50 :=
      mul_le_mul_of_nonneg_right h1 (by norm_num)
    exact add_le_add (add_le_add le_rfl h2) le_rfl
  · intro h
    apply win_core_raw_mono
    have h1 : (low : ℚ) * 5 ≤ (low2 : ℚ) * 5 :=
      mul_le_mul_of_nonneg_right (by exact_mod_cast h) (by norm_num)
    have h2 : max 0 (10 - (low2 : ℚ) * 5) ≤ max 0 (10 - (low : ℚ) * 5) :=
      max_le_max le_rfl (by linarith)
    exact add_le_add le_rfl h2
  · intro sp rp hsp hrp
    unfold calculate_win_probability
    rw [if_neg fun hcon => hrp (List.isEmpty_iff.mp hcon),
      if_neg fun hcon => hsp (List.isEmpty_iff.mp hcon)]

/-- C7 witness: raising coverage from 0 to 1 with average 50 and no low
matches does not decrease the score. -/
theorem c7_win_probability_monotone_witness :
    win_prob_core 0 50 0 ≤ win_prob_core 1 50 0 :=
  (c7_win_probability_monotone 0 1 50 50 0 0).1 (by norm_num)

/-! C10. -/

/-- C10 counterexample: in the `agent.py` comparator the tolerance division
has no exact-zero guard — on requirement `"0"` against candidate `"5"` the
`try` block divides by the parsed zero (modelled by `Option.none` from the
checked division), and only the surrounding `except` turns that into a
`False` result. -/
theorem c10_counterexample :
    agentCompareTry (SpecValue.str "0") (SpecValue.str "5") = Option.none ∧
    agentCompareSpecValues (SpecValue.str "0") (SpecValue.str "5") = false := by
  refine ⟨by decide, by decide⟩

/-- C10 (amended): the comparators are total and never raise: the runner's
`compare_values` agrees everywhere with its division-checked variant (its
tolerance divisor is guarded by the exact-zero case), and the runner's
percentage division is guarded by the empty-specs rule; the `agent.py`
variant, however, is total only because its `except` swallows the
`ZeroDivisionError` of an unguarded tolerance division, returning the plain
string-equality verdict on that path. -/
theorem c10_no_division_by_zero :
    (∀ v w : SpecValue, compare_values_checked v w = some (compare_values v w)) ∧
    (∀ rfp_specs oem_specs : SpecSet,
      spec_match_percentage_checked rfp_specs oem_specs =
        some (spec_match_percentage rfp_specs oem_specs)) ∧
    (∀ v w : SpecValue, agentCompareTry v w = Option.none →
      agentCompareSpecValues v w = (lowerStrip v == lowerStrip w)) := by
  refine ⟨?_, ?_, ?_⟩
  · intro v w
    by_cases hv : v = SpecValue.null
    · simp [compare_values_checked, compare_values, hv]
    · by_cases hw : w = SpecValue.null
      · simp [compare_values_checked, compare_values, hv, hw]
      · simp only [compare_values_checked, compare_values, if_neg hv, if_neg hw]
        cases hn : normalize_spec_value v with
        | num r =>
            cases hm : normalize_spec_value w with
            | num o =>
                by_cases hr : r = 0
                · simp [hr]
                · have habs : |r| > 0 := abs_pos.mpr hr
                  simp [hr, habs, checkedDiv, ne_of_gt habs]
            | null => rfl
            | strc s => rfl
        | null => cases hm : normalize_spec_value w <;> rfl
        | strc s => cases hm : normalize_spec_value w <;> rfl
  · intro rfp_specs oem_specs
    by_cases he : rfp_specs.isEmpty
    · simp [spec_match_percentage_checked, spec_match_percentage, he]
    · simp only [spec_match_percentage_checked, spec_match_percentage, if_neg he]
      have hnil : rfp_specs ≠ [] := fun hn => he (by simp [hn])
      have hpos : 0 < rfp_specs.length := List.length_pos.mpr hnil
      have hlen : ((rfp_specs.length : ℚ)) ≠ 0 := by
        exact_mod_cast Nat.pos_iff_ne_zero.mp hpos
      simp [checkedDiv, hlen]
  · intro v w htry
    simp only [agentCompareSpecValues, htry]
    by_cases he : (lowerStrip v == lowerStrip w) = true
    · rw [if_pos he, he]
    · rw [if_neg he]
      rw [Bool.not_eq_true] at he
      rw [he]

/-- C10 witness: the exception-recovery clause applied to the counterexample
inputs, where the verdict degrades to the (false) string equality. -/
theorem c10_no_division_by_zero_witness :
    agentCompareSpecValues (SpecValue.str "0") (SpecValue.str "5") = false := by
  have h := c10_no_division_by_zero.2.2 (SpecValue.str "0") (SpecValue.str "5")
    (by decide)
  rw [h]
  decide
